import Mathlib

/-!
Verification of the native xxHash64 module
(src/packages/native/src/hash.cc) against its specification.

The file has three layers:

1. The xxHash64 core (one-shot `XXH64`, streaming `XXH64_reset`,
   `XXH64_update`, `XXH64_digest`).  The binding links against the
   header-only library `xxhash.h`, which is not part of the sources under
   review, so this layer is modelled from the specification: the prime
   constants, accumulator initialization, `round`, `mergeRound`,
   stripe/tail processing and the avalanche finalization follow the
   algorithm description in the spec (sections 3 and 4), whose empty-input
   test vectors pin the algorithm bit-for-bit.  Machine integers are
   `Nat` reduced modulo `2 ^ 64` at every operation.

2. A model of the JavaScript values the N-API binding inspects
   (`JsVal`), and the binding entry points of hash.cc translated
   one-for-one: `XxHash64`, `XxHash64AsNumber`, `XxHash64Batch`,
   `XxHash64BatchAsNumbers` and the `XxHash64State` class.

3. Theorems settling the frozen claims.
-/

/-- 2 ^ 64, the modulus of unsigned 64-bit arithmetic. -/
def M64 : Nat := 18446744073709551616

/-- 2 ^ 32, the modulus used by the truncated (AsNumber) entry points. -/
def M32 : Nat := 4294967296

/-- Modelled from the spec: prime constant P1 = 0x9E3779B185EBCA87. -/
def P1 : Nat := 0x9E3779B185EBCA87

/-- Modelled from the spec: prime constant P2 = 0xC2B2AE3D27D4EB4F. -/
def P2 : Nat := 0xC2B2AE3D27D4EB4F

/-- Modelled from the spec: prime constant P3 = 0x165667B19E3779F9. -/
def P3 : Nat := 0x165667B19E3779F9

/-- Modelled from the spec: prime constant P4 = 0x85EBCA77C2B2AE63. -/
def P4 : Nat := 0x85EBCA77C2B2AE63

/-- Modelled from the spec: prime constant P5 = 0x27D4EB2F165667C5. -/
def P5 : Nat := 0x27D4EB2F165667C5

/-- Unsigned 64-bit addition. -/
def add64 (a b : Nat) : Nat := (a + b) % M64

/-- Unsigned 64-bit subtraction. -/
def sub64 (a b : Nat) : Nat := (a % M64 + (M64 - b % M64)) % M64

/-- Unsigned 64-bit multiplication. -/
def mul64 (a b : Nat) : Nat := (a * b) % M64

/-- Rotate a 64-bit value left by r bits (0 < r < 64 in all uses). -/
def rotl64 (a r : Nat) : Nat :=
  ((a % M64) * 2 ^ r + (a % M64) / 2 ^ (64 - r)) % M64

/-- Bitwise xor of two 64-bit values. -/
def xor64 (a b : Nat) : Nat := Nat.xor (a % M64) (b % M64)

/-- Little-endian value of a byte list (each element taken mod 256). -/
def leBytes : List Nat → Nat
  | [] => 0
  | b :: bs => b % 256 + 256 * leBytes bs

/-- Little-endian 64-bit read: the first 8 bytes of the list. -/
def le64 (bs : List Nat) : Nat := leBytes (List.take 8 bs)

/-- Little-endian 32-bit read: the first 4 bytes of the list. -/
def le32 (bs : List Nat) : Nat := leBytes (List.take 4 bs)

/-- The four 64-bit accumulator lanes. -/
abbrev Accs := Nat × Nat × Nat × Nat

/-- Modelled from the spec: the lane mix function
`round(acc, input) = rotate_left(acc + input * P2, 31) * P1`. -/
def XXH64_round (acc input : Nat) : Nat :=
  mul64 (rotl64 (add64 acc (mul64 input P2)) 31) P1

/-- Modelled from the spec: the lane merge function
`mergeRound(hash, acc)`: `acc := round(0, acc); hash := (hash xor acc) * P1 + P4`. -/
def XXH64_mergeRound (hash acc : Nat) : Nat :=
  add64 (mul64 (xor64 hash (XXH64_round 0 acc)) P1) P4

/-- Modelled from the spec: the avalanche finalization
`h ^= h >> 33; h *= P2; h ^= h >> 29; h *= P3; h ^= h >> 32`. -/
def XXH64_avalanche (h : Nat) : Nat :=
  let h0 := h % M64
  let h1 := xor64 h0 (h0 / 2 ^ 33)
  let h2 := mul64 h1 P2
  let h3 := xor64 h2 (h2 / 2 ^ 29)
  let h4 := mul64 h3 P3
  xor64 h4 (h4 / 2 ^ 32)

/-- Modelled from the spec: accumulator initialization from the seed:
`acc1 = seed + P1 + P2`, `acc2 = seed + P2`, `acc3 = seed`, `acc4 = seed - P1`. -/
def initAccs (seed : Nat) : Accs :=
  (add64 (add64 seed P1) P2, add64 seed P2, seed % M64, sub64 seed P1)

/-- Modelled from the spec: one 32-byte stripe applies `round` to each of
the four 8-byte little-endian lanes against the corresponding accumulator. -/
def processStripe (a : Accs) (s : List Nat) : Accs :=
  (XXH64_round a.1 (le64 s),
   XXH64_round a.2.1 (le64 (List.drop 8 s)),
   XXH64_round a.2.2.1 (le64 (List.drop 16 s)),
   XXH64_round a.2.2.2 (le64 (List.drop 24 s)))

/-- Fuel-indexed stripe consumption loop: while at least 32 bytes remain,
consume one stripe.  The fuel only bounds the recursion; `consumeAll`
instantiates it with the list length, which always suffices. -/
def consumeAllF : Nat → Accs → List Nat → Accs × List Nat
  | 0, a, bs => (a, bs)
  | f + 1, a, bs =>
    if 32 ≤ bs.length then
      consumeAllF f (processStripe a (List.take 32 bs)) (List.drop 32 bs)
    else (a, bs)

/-- Modelled from the spec: consume 32-byte stripes while at least 32
bytes remain; return the final accumulators and the remaining tail. -/
def consumeAll (a : Accs) (bs : List Nat) : Accs × List Nat :=
  consumeAllF bs.length a bs

/-- Modelled from the spec: the single-byte tail sub-pass,
`h ^= byte * P5; h = rotate_left(h, 11) * P1` for each remaining byte. -/
def tailBytesGo : Nat → List Nat → Nat
  | h, [] => h
  | h, b :: bs => tailBytesGo (mul64 (rotl64 (xor64 h (mul64 (b % 256) P5)) 11) P1) bs

/-- Modelled from the spec: the 4-byte tail sub-pass
`h ^= le32 * P1; h = rotate_left(h, 23) * P2 + P3`, then single bytes. -/
def tail4 (h : Nat) (bs : List Nat) : Nat :=
  if 4 ≤ bs.length then
    tailBytesGo (add64 (mul64 (rotl64 (xor64 h (mul64 (le32 bs) P1)) 23) P2) P3)
      (List.drop 4 bs)
  else tailBytesGo h bs

/-- Fuel-indexed 8-byte tail sub-pass:
`k = round(0, le64); h ^= k; h = rotate_left(h, 27) * P1 + P4` while at
least 8 bytes remain, then the 4-byte and single-byte sub-passes. -/
def tail8F : Nat → Nat → List Nat → Nat
  | 0, h, bs => tail4 h bs
  | f + 1, h, bs =>
    if 8 ≤ bs.length then
      tail8F f (add64 (mul64 (rotl64 (xor64 h (XXH64_round 0 (le64 bs))) 27) P1) P4)
        (List.drop 8 bs)
    else tail4 h bs

/-- Modelled from the spec: the three tail sub-passes in order
(8-byte lanes, one 4-byte lane, single bytes). -/
def tail8 (h : Nat) (bs : List Nat) : Nat := tail8F bs.length h bs

/-- Modelled from the spec: fold the four accumulators into one hash:
`h = rotl(v1,1) + rotl(v2,7) + rotl(v3,12) + rotl(v4,18)` followed by
one `mergeRound` per accumulator. -/
def XXH64_mergeAccs (a : Accs) : Nat :=
  XXH64_mergeRound
    (XXH64_mergeRound
      (XXH64_mergeRound
        (XXH64_mergeRound
          (add64 (add64 (add64 (rotl64 a.1 1) (rotl64 a.2.1 7)) (rotl64 a.2.2.1 12))
            (rotl64 a.2.2.2 18))
          a.1)
        a.2.1)
      a.2.2.1)
    a.2.2.2

/-- Modelled from the spec: add the total input length to the running
hash, run the tail sub-passes over the remaining bytes, then avalanche. -/
def XXH64_finalize (h len : Nat) (rest : List Nat) : Nat :=
  XXH64_avalanche (tail8 (add64 h len) rest)

/-- Modelled from the spec: HashCore, the one-shot xxHash64 of a byte
sequence with a 64-bit seed.  Inputs of at least 32 bytes go through the
four-accumulator stripe machinery; shorter inputs start from
`seed + P5`.  The total length is always folded in before the tail
sub-passes and the avalanche. -/
def XXH64 (bs : List Nat) (seed : Nat) : Nat :=
  if 32 ≤ bs.length then
    XXH64_finalize (XXH64_mergeAccs (consumeAll (initAccs seed) bs).1) bs.length
      (consumeAll (initAccs seed) bs).2
  else
    XXH64_finalize (add64 (seed % M64) P5) bs.length bs

/-- Modelled from the spec: the streaming hasher state — four
accumulators, the buffered tail of fewer than 32 unconsumed bytes, and
the running total length. -/
structure XXH64_state_t where
  v1 : Nat
  v2 : Nat
  v3 : Nat
  v4 : Nat
  buf : List Nat
  totalLen : Nat
deriving Repr, DecidableEq

/-- Modelled from the spec: a freshly reset streaming state for a seed —
accumulators initialized from the seed, empty tail, zero length. -/
def XXH64_reset (seed : Nat) : XXH64_state_t :=
  { v1 := (initAccs seed).1
    v2 := (initAccs seed).2.1
    v3 := (initAccs seed).2.2.1
    v4 := (initAccs seed).2.2.2
    buf := []
    totalLen := 0 }

/-- Modelled from the spec: `update` concatenates the buffered tail with
the new bytes, consumes full 32-byte stripes while possible, keeps the
remainder (fewer than 32 bytes) as the new tail, and adds the length of
this call to the total. -/
def XXH64_update (s : XXH64_state_t) (bs : List Nat) : XXH64_state_t :=
  { v1 := (consumeAll (s.v1, s.v2, s.v3, s.v4) (s.buf ++ bs)).1.1
    v2 := (consumeAll (s.v1, s.v2, s.v3, s.v4) (s.buf ++ bs)).1.2.1
    v3 := (consumeAll (s.v1, s.v2, s.v3, s.v4) (s.buf ++ bs)).1.2.2.1
    v4 := (consumeAll (s.v1, s.v2, s.v3, s.v4) (s.buf ++ bs)).1.2.2.2
    buf := (consumeAll (s.v1, s.v2, s.v3, s.v4) (s.buf ++ bs)).2
    totalLen := s.totalLen + bs.length }

/-- Modelled from the spec: `digest` computes the hash of everything seen
so far without changing the state.  With at least 32 bytes seen it folds
the current accumulators; otherwise it starts from `seed + P5` (the
third accumulator still holds the seed in that regime).  Either way the
total length is folded in, the buffered tail is consumed by the tail
sub-passes, and the avalanche is applied. -/
def XXH64_digest (s : XXH64_state_t) : Nat :=
  if 32 ≤ s.totalLen then
    XXH64_finalize (XXH64_mergeAccs (s.v1, s.v2, s.v3, s.v4)) s.totalLen s.buf
  else
    XXH64_finalize (add64 s.v3 P5) s.totalLen s.buf

/-!
## The N-API binding layer (hash.cc)

`JsVal` models the JavaScript values the binding code inspects: byte
buffers and typed arrays (each carrying its byte view), BigInt and Number
seeds (each carrying the integer the N-API conversion yields), arrays,
and a catch-all for every other value.  Entry points return
`Except String _`, an error being a synchronously thrown TypeError with
the message of hash.cc.
-/

/-- A JavaScript value as seen by the binding code of hash.cc. -/
inductive JsVal where
  | buffer (bytes : List Nat)
  | typedArray (bytes : List Nat)
  | bigint (n : Int)
  | number (n : Int)
  | array (items : List JsVal)
  | other

/-- The byte view of a value: hash.cc lines 40-49 accept a Buffer or a
TypedArray and read its data pointer and byte length; anything else has
no byte view. -/
def bytesOf : JsVal → Option (List Nat)
  | JsVal.buffer bs => some bs
  | JsVal.typedArray bs => some bs
  | _ => none

/-- The unsigned 64-bit value an `Int` maps to: `Uint64Value` on a BigInt
yields its low 64 bits, and the `uint64_t` cast of an `int64_t` is the
value modulo 2 ^ 64. -/
def u64ofInt (n : Int) : Nat := (n % 18446744073709551616).toNat

/-- Seed parsing of hash.cc lines 51-58 (also 124-130 and 234-240): a
BigInt seed via `Uint64Value`, else a Number seed via `Int64Value` cast
to `uint64_t`, else 0. -/
def seedArgU64 : Option JsVal → Nat
  | some (JsVal.bigint n) => u64ofInt n
  | some (JsVal.number n) => u64ofInt n
  | _ => 0

/-- Seed parsing of hash.cc lines 94-97 and 178-181: only a Number seed
is consulted; a BigInt (or anything else) leaves the seed at 0. -/
def seedArgNum : Option JsVal → Nat
  | some (JsVal.number n) => u64ofInt n
  | _ => 0

/-- hash.cc lines 20-65, `XxHash64`: require a first argument, require it
byte-bearing, parse the optional seed (BigInt or Number), return the
64-bit hash as a BigInt. -/
def XxHash64 (args : List JsVal) : Except String Nat :=
  match args[0]? with
  | none => Except.error "Expected at least 1 argument"
  | some v =>
    match bytesOf v with
    | none => Except.error "Expected Buffer or TypedArray"
    | some bs => Except.ok (XXH64 bs (seedArgU64 args[1]?))

/-- hash.cc lines 71-103, `XxHash64AsNumber`: require a byte-bearing
first argument, parse only a Number seed, return the hash truncated to
its low 32 bits. -/
def XxHash64AsNumber (args : List JsVal) : Except String Nat :=
  match args[0]? with
  | none => Except.error "Expected Buffer or TypedArray"
  | some v =>
    match bytesOf v with
    | none => Except.error "Expected Buffer or TypedArray"
    | some bs => Except.ok (XXH64 bs (seedArgNum args[1]?) % M32)

/-- One element of a batch, hash.cc lines 134-157: a non-byte-bearing
element yields 0, a valid one its hash with the shared seed. -/
def batchElem (seed : Nat) (v : JsVal) : Nat :=
  match bytesOf v with
  | some bs => XXH64 bs seed
  | none => 0

/-- hash.cc lines 112-161, `XxHash64Batch`: require an array, parse the
shared seed (BigInt or Number), hash each element in order. -/
def XxHash64Batch (args : List JsVal) : Except String (List Nat) :=
  match args[0]? with
  | some (JsVal.array items) =>
    Except.ok (items.map (batchElem (seedArgU64 args[1]?)))
  | _ => Except.error "Expected Array of Buffers"

/-- One element of a truncated batch, hash.cc lines 185-208: a
non-byte-bearing element yields 0, a valid one the low 32 bits of its
hash with the shared seed. -/
def batchElemNum (seed : Nat) (v : JsVal) : Nat :=
  match bytesOf v with
  | some bs => XXH64 bs seed % M32
  | none => 0

/-- hash.cc lines 166-212, `XxHash64BatchAsNumbers`: like the batch entry
point but with Number-only seed parsing and results truncated to 32 bits
(an invalid element still yields 0). -/
def XxHash64BatchAsNumbers (args : List JsVal) : Except String (List Nat) :=
  match args[0]? with
  | some (JsVal.array items) =>
    Except.ok (items.map (batchElemNum (seedArgNum args[1]?)))
  | _ => Except.error "Expected Array of Buffers"

/-- The wrapped streaming object of hash.cc lines 218-298: the native
`XXH64_state_t` plus the remembered construction seed used by reset. -/
structure XxHash64StateRec where
  state : XXH64_state_t
  seed : Nat
deriving Repr, DecidableEq

/-- hash.cc lines 232-243, the `XxHash64State` constructor: parse the
seed (BigInt or Number, default 0), create a state and reset it. -/
def XxHash64State.New (arg : Option JsVal) : XxHash64StateRec :=
  { state := XXH64_reset (seedArgU64 arg), seed := seedArgU64 arg }

/-- hash.cc lines 251-276, `XxHash64State::Update`: a non-byte-bearing
argument throws a TypeError before the native state is touched; a valid
one is fed to the native update. -/
def XxHash64State.Update (h : XxHash64StateRec) (arg : Option JsVal) :
    XxHash64StateRec × Except String Unit :=
  match arg with
  | some v =>
    match bytesOf v with
    | some bs => ({ state := XXH64_update h.state bs, seed := h.seed }, Except.ok ())
    | none => (h, Except.error "Expected Buffer or TypedArray")
  | none => (h, Except.error "Expected Buffer or TypedArray")

/-- hash.cc lines 278-282, `XxHash64State::Digest`: the 64-bit digest of
the current state, as a BigInt. -/
def XxHash64State.Digest (h : XxHash64StateRec) : Nat := XXH64_digest h.state

/-- hash.cc lines 284-288, `XxHash64State::DigestAsNumber`: the digest
truncated to its low 32 bits. -/
def XxHash64State.DigestAsNumber (h : XxHash64StateRec) : Nat :=
  XXH64_digest h.state % M32

/-- hash.cc lines 290-293, `XxHash64State::Reset`: reset the native state
with the remembered construction seed. -/
def XxHash64State.Reset (h : XxHash64StateRec) : XxHash64StateRec :=
  { state := XXH64_reset h.seed, seed := h.seed }

/-!
## Operation traces over a streaming hasher

`runOps` runs a list of update / digest / reset operations against a
wrapped streaming object, threading the state and collecting the values
returned by the digest calls.  `XXH64_digest` takes the native state by
const pointer in the source, so the digest step leaves the state as it
found it.
-/

/-- One mutating or observing operation on a streaming hasher. -/
inductive HOp where
  | update (bs : List Nat)
  | digest
  | reset
deriving Repr, DecidableEq

/-- Apply one operation: the successor state and the values output. -/
def applyOp (h : XxHash64StateRec) : HOp → XxHash64StateRec × List Nat
  | HOp.update bs => ({ state := XXH64_update h.state bs, seed := h.seed }, [])
  | HOp.digest => (h, [XXH64_digest h.state])
  | HOp.reset => (XxHash64State.Reset h, [])

/-- Run a list of operations, collecting all digest outputs in order. -/
def runOps (h : XxHash64StateRec) : List HOp → XxHash64StateRec × List Nat
  | [] => (h, [])
  | op :: ops =>
    ((runOps (applyOp h op).1 ops).1,
      (applyOp h op).2 ++ (runOps (applyOp h op).1 ops).2)

/-!
## Stripe-loop lemmas

The streaming/one-shot equivalence rests on three facts about the stripe
consumption loop: its result does not depend on the fuel once the fuel
covers the list, it is the identity on short lists, and consuming a
concatenation is consuming the first part and then the remainder joined
with the second part.
-/

theorem consumeAllF_fuel (f : Nat) : ∀ (g : Nat) (a : Accs) (bs : List Nat),
    bs.length ≤ f → bs.length ≤ g → consumeAllF f a bs = consumeAllF g a bs := by
  induction f using Nat.strong_induction_on with
  | _ f ih =>
    intro g a bs hf hg
    match f, g with
    | 0, 0 => rfl
    | 0, g + 1 =>
      have hbs : bs = [] := List.eq_nil_of_length_eq_zero (Nat.le_zero.mp hf)
      subst hbs
      simp [consumeAllF]
    | f + 1, 0 =>
      have hbs : bs = [] := List.eq_nil_of_length_eq_zero (Nat.le_zero.mp hg)
      subst hbs
      simp [consumeAllF]
    | f + 1, g + 1 =>
      by_cases h32 : 32 ≤ bs.length
      · simp only [consumeAllF, h32, if_true]
        have hdrop : (List.drop 32 bs).length = bs.length - 32 := List.length_drop 32 bs
        exact ih f (Nat.lt_succ_self f) g (processStripe a (List.take 32 bs))
          (List.drop 32 bs) (by omega) (by omega)
      · simp only [consumeAllF, h32, if_false]

theorem consumeAll_short (a : Accs) (bs : List Nat) (h : bs.length < 32) :
    consumeAll a bs = (a, bs) := by
  unfold consumeAll
  cases hbs : bs.length with
  | zero => simp [consumeAllF]
  | succ n =>
    have hlt : ¬ 32 ≤ bs.length := by omega
    simp [consumeAllF, hlt]

theorem consumeAll_long (a : Accs) (bs : List Nat) (h : 32 ≤ bs.length) :
    consumeAll a bs = consumeAll (processStripe a (List.take 32 bs)) (List.drop 32 bs) := by
  unfold consumeAll
  obtain ⟨n, hn⟩ : ∃ n, bs.length = n + 1 := ⟨bs.length - 1, by omega⟩
  rw [hn]
  simp only [consumeAllF, h, if_true]
  have hdrop : (List.drop 32 bs).length = bs.length - 32 := List.length_drop 32 bs
  exact consumeAllF_fuel n (List.drop 32 bs).length (processStripe a (List.take 32 bs))
    (List.drop 32 bs) (by omega) (by omega)

theorem consumeAll_append (a : Accs) (bs cs : List Nat) :
    consumeAll a (bs ++ cs) =
      consumeAll (consumeAll a bs).1 ((consumeAll a bs).2 ++ cs) := by
  obtain ⟨n, hn⟩ : ∃ n, bs.length ≤ n := ⟨bs.length, Nat.le_refl _⟩
  induction n generalizing a bs with
  | zero =>
    have hbs : bs = [] := List.eq_nil_of_length_eq_zero (Nat.le_zero.mp hn)
    subst hbs
    rw [consumeAll_short a [] (by simp)]
  | succ n ih =>
    by_cases h32 : 32 ≤ bs.length
    · have hbc : 32 ≤ (bs ++ cs).length := by
        rw [List.length_append]; omega
      rw [consumeAll_long a (bs ++ cs) hbc, consumeAll_long a bs h32]
      have htake : List.take 32 (bs ++ cs) = List.take 32 bs := by
        rw [List.take_append_eq_append_take, Nat.sub_eq_zero_of_le h32]
        simp
      have hdrop : List.drop 32 (bs ++ cs) = List.drop 32 bs ++ cs := by
        rw [List.drop_append_eq_append_drop, Nat.sub_eq_zero_of_le h32]
        simp
      rw [htake, hdrop]
      exact ih (processStripe a (List.take 32 bs)) (List.drop 32 bs)
        (by rw [List.length_drop]; omega)
    · rw [consumeAll_short a bs (by omega)]

/-!
## The reachable streaming states

`runState seed B` is the streaming state an instance reset with `seed`
reaches after absorbing exactly the bytes `B`.  Update appends to the
absorbed bytes, and digest on such a state is the one-shot hash.
-/

/-- The streaming state reached from a fresh seed after absorbing `B`. -/
def runState (seed : Nat) (B : List Nat) : XXH64_state_t :=
  { v1 := (consumeAll (initAccs seed) B).1.1
    v2 := (consumeAll (initAccs seed) B).1.2.1
    v3 := (consumeAll (initAccs seed) B).1.2.2.1
    v4 := (consumeAll (initAccs seed) B).1.2.2.2
    buf := (consumeAll (initAccs seed) B).2
    totalLen := B.length }

theorem reset_eq_runState (seed : Nat) : XXH64_reset seed = runState seed [] := rfl

theorem update_runState (seed : Nat) (B bs : List Nat) :
    XXH64_update (runState seed B) bs = runState seed (B ++ bs) := by
  simp only [XXH64_update, runState, consumeAll_append (initAccs seed) B bs,
    List.length_append]

theorem digest_runState (seed : Nat) (B : List Nat) :
    XXH64_digest (runState seed B) = XXH64 B seed := by
  by_cases h : 32 ≤ B.length
  · simp only [XXH64_digest, runState, XXH64, h, if_true]
  · have hcs : consumeAll (initAccs seed) B = (initAccs seed, B) :=
      consumeAll_short (initAccs seed) B (by omega)
    simp only [XXH64_digest, runState, XXH64, h, if_false, hcs]
    rfl

theorem foldl_update_runState (seed : Nat) (chunks : List (List Nat)) :
    ∀ B, List.foldl XXH64_update (runState seed B) chunks =
      runState seed (B ++ chunks.flatten) := by
  induction chunks with
  | nil => intro B; simp [List.foldl]
  | cons c cs ih =>
    intro B
    simp only [List.foldl, List.flatten_cons, update_runState, ih, List.append_assoc]

theorem runOps_append (h : XxHash64StateRec) (xs ys : List HOp) :
    runOps h (xs ++ ys) =
      ((runOps (runOps h xs).1 ys).1,
        (runOps h xs).2 ++ (runOps (runOps h xs).1 ys).2) := by
  induction xs generalizing h with
  | nil => simp [runOps]
  | cons op ops ih => simp [runOps, ih, List.append_assoc]

theorem batchElem_buffer (seed : Nat) (b : List Nat) :
    batchElem seed (JsVal.buffer b) = XXH64 b seed := rfl

theorem batchElem_invalid (seed : Nat) (v : JsVal) (h : bytesOf v = none) :
    batchElem seed v = 0 := by
  unfold batchElem
  rw [h]

theorem batchElemNum_buffer (seed : Nat) (b : List Nat) :
    batchElemNum seed (JsVal.buffer b) = XXH64 b seed % M32 := rfl

theorem batchElemNum_invalid (seed : Nat) (v : JsVal) (h : bytesOf v = none) :
    batchElemNum seed v = 0 := by
  unfold batchElemNum
  rw [h]

/-!
## The claims
-/

/-- C1: for every seed and every partition of a byte buffer into
consecutive chunks, feeding the chunks to a freshly constructed streaming
hasher via update, in order, and then calling digest returns exactly the
one-shot hash of the concatenated buffer with that seed. -/
theorem C1_streaming_digest_eq_one_shot (seed : Nat) (chunks : List (List Nat)) :
    XXH64_digest (List.foldl XXH64_update (XXH64_reset seed) chunks) =
      XXH64 chunks.flatten seed := by
  rw [reset_eq_runState, foldl_update_runState seed chunks [], List.nil_append,
    digest_runState]

/-- C2 counterexample: the claim states that the empty-input hash at
seed 1 is 0x9C4E3EA93DFA0FAB, but the algorithm — which the same claim
pins down by HashCore([], s) = avalanche(s + P5) — yields
0xD5AFBA1336A3BE4B on the empty input at seed 1. -/
theorem C2_counterexample :
    XXH64 [] 1 = XXH64_avalanche ((1 + P5) % M64) ∧
    XXH64 [] 1 = 0xD5AFBA1336A3BE4B ∧
    XXH64 [] 1 ≠ 0x9C4E3EA93DFA0FAB := by
  refine ⟨by decide, by decide, by decide⟩

/-- C2 (amended): for every seed, the one-shot hash of the empty byte
sequence equals avalanche(seed + P5); in particular it is
0xEF46DB3751D8E999 at seed 0 and 0xD5AFBA1336A3BE4B at seed 1. -/
theorem C2_empty_hash (seed : Nat) :
    XXH64 [] seed = XXH64_avalanche ((seed + P5) % M64) ∧
    XXH64 [] 0 = 0xEF46DB3751D8E999 ∧
    XXH64 [] 1 = 0xD5AFBA1336A3BE4B := by
  have hz : XXH64 [] 0 = 0xEF46DB3751D8E999 := by decide
  have ho : XXH64 [] 1 = 0xD5AFBA1336A3BE4B := by decide
  have h0 : XXH64 [] seed =
      XXH64_avalanche (add64 (add64 (seed % M64) P5) 0) := by
    simp [XXH64, XXH64_finalize, tail8, tail8F, tail4, tailBytesGo]
  have harg : add64 (add64 (seed % M64) P5) 0 = (seed + P5) % M64 := by
    simp only [add64, P5, M64]
    omega
  exact ⟨by rw [h0, harg], hz, ho⟩

/-- C3: the truncated operations are a pure narrowing view of the 64-bit
ones — on every buffer or typed array, with the seed absent or a Number
(the forms both one-shot entry points accept), XxHash64AsNumber returns
the low 32 bits of what XxHash64 returns, and on every streaming state
DigestAsNumber returns the low 32 bits of Digest. -/
theorem C3_truncation_is_low32 (bs : List Nat) (n : Int) (h : XxHash64StateRec) :
    XxHash64AsNumber [JsVal.buffer bs] = (XxHash64 [JsVal.buffer bs]).map (· % M32) ∧
    XxHash64AsNumber [JsVal.buffer bs, JsVal.number n] =
      (XxHash64 [JsVal.buffer bs, JsVal.number n]).map (· % M32) ∧
    XxHash64AsNumber [JsVal.typedArray bs, JsVal.number n] =
      (XxHash64 [JsVal.typedArray bs, JsVal.number n]).map (· % M32) ∧
    XxHash64State.DigestAsNumber h = XxHash64State.Digest h % M32 :=
  ⟨rfl, rfl, rfl, rfl⟩

/-- C4 counterexample: the truncated one-shot entry point does not accept
a BigInt seed — called with a BigInt seed of 1 it hashes with seed 0,
which differs from the hash with seed 1. -/
theorem C4_counterexample :
    XxHash64AsNumber [JsVal.buffer [], JsVal.bigint 1] =
      Except.ok (XXH64 [] 0 % M32) ∧
    XXH64 [] 0 % M32 ≠ XXH64 [] 1 % M32 :=
  ⟨rfl, by decide⟩

/-- C4 (amended): the full-width entry points (one-shot, batch, streaming
construction) accept the seed as a BigInt (low 64 bits) or a Number
(through its signed 64-bit value), defaulting to 0 when absent; the
truncated entry points (XxHash64AsNumber, XxHash64BatchAsNumbers) accept
only a Number seed and treat a BigInt seed as absent, that is as 0. -/
theorem C4_seed_acceptance (bs : List Nat) (bufs : List (List Nat)) (n : Int) :
    XxHash64 [JsVal.buffer bs] = Except.ok (XXH64 bs 0) ∧
    XxHash64 [JsVal.buffer bs, JsVal.bigint n] = Except.ok (XXH64 bs (u64ofInt n)) ∧
    XxHash64 [JsVal.buffer bs, JsVal.number n] = Except.ok (XXH64 bs (u64ofInt n)) ∧
    XxHash64Batch [JsVal.array (bufs.map JsVal.buffer)] =
      Except.ok (bufs.map (fun b => XXH64 b 0)) ∧
    XxHash64Batch [JsVal.array (bufs.map JsVal.buffer), JsVal.bigint n] =
      Except.ok (bufs.map (fun b => XXH64 b (u64ofInt n))) ∧
    XxHash64Batch [JsVal.array (bufs.map JsVal.buffer), JsVal.number n] =
      Except.ok (bufs.map (fun b => XXH64 b (u64ofInt n))) ∧
    XxHash64State.New none = XxHash64State.New (some (JsVal.bigint 0)) ∧
    (XxHash64State.New (some (JsVal.bigint n))).seed = u64ofInt n ∧
    (XxHash64State.New (some (JsVal.number n))).seed = u64ofInt n ∧
    XxHash64AsNumber [JsVal.buffer bs] = Except.ok (XXH64 bs 0 % M32) ∧
    XxHash64AsNumber [JsVal.buffer bs, JsVal.number n] =
      Except.ok (XXH64 bs (u64ofInt n) % M32) ∧
    XxHash64AsNumber [JsVal.buffer bs, JsVal.bigint n] =
      Except.ok (XXH64 bs 0 % M32) ∧
    XxHash64BatchAsNumbers [JsVal.array (bufs.map JsVal.buffer), JsVal.number n] =
      Except.ok (bufs.map (fun b => XXH64 b (u64ofInt n) % M32)) ∧
    XxHash64BatchAsNumbers [JsVal.array (bufs.map JsVal.buffer), JsVal.bigint n] =
      Except.ok (bufs.map (fun b => XXH64 b 0 % M32)) := by
  refine ⟨rfl, rfl, rfl, ?_, ?_, ?_, rfl, rfl, rfl, rfl, rfl, rfl, ?_, ?_⟩ <;>
    simp [XxHash64Batch, XxHash64BatchAsNumbers, batchElem, batchElemNum, bytesOf,
      List.map_map, Function.comp, seedArgU64, seedArgNum]

/-- C5: the batch entry point, on an array of N buffers and any shared
seed argument, returns exactly N results, the i-th being the one-shot
hash of the i-th buffer with that seed, in input order. -/
theorem C5_batch_order (bufs : List (List Nat)) (sa : Option JsVal) :
    XxHash64Batch (JsVal.array (bufs.map JsVal.buffer) :: sa.toList) =
      Except.ok (bufs.map (fun b => XXH64 b (seedArgU64 sa))) ∧
    (bufs.map (fun b => XXH64 b (seedArgU64 sa))).length = bufs.length ∧
    ∀ i : Nat, (bufs.map (fun b => XXH64 b (seedArgU64 sa)))[i]? =
      (bufs[i]?).map (fun b => XXH64 b (seedArgU64 sa)) := by
  refine ⟨?_, by simp, fun i => by simp⟩
  cases sa with
  | none =>
    simp [XxHash64Batch, batchElem, bytesOf, List.map_map, Function.comp]
  | some v =>
    simp [XxHash64Batch, batchElem, bytesOf, List.map_map, Function.comp]

/-- C6: a non-byte-bearing element anywhere in a batch does not abort the
batch — its slot degrades to a zero result and every other element is
hashed normally, for both the 64-bit and the truncated batch entry
points. -/
theorem C6_batch_invalid_element (pre post : List (List Nat)) (bad : JsVal)
    (sa : Option JsVal) (h : bytesOf bad = none) :
    XxHash64Batch
        (JsVal.array (pre.map JsVal.buffer ++ bad :: post.map JsVal.buffer) :: sa.toList) =
      Except.ok (pre.map (fun b => XXH64 b (seedArgU64 sa)) ++ 0 ::
        post.map (fun b => XXH64 b (seedArgU64 sa))) ∧
    XxHash64BatchAsNumbers
        (JsVal.array (pre.map JsVal.buffer ++ bad :: post.map JsVal.buffer) :: sa.toList) =
      Except.ok (pre.map (fun b => XXH64 b (seedArgNum sa) % M32) ++ 0 ::
        post.map (fun b => XXH64 b (seedArgNum sa) % M32)) := by
  cases sa with
  | none =>
    constructor <;>
      simp [XxHash64Batch, XxHash64BatchAsNumbers, List.map_append, List.map_map,
        Function.comp_def, batchElem_buffer, batchElem_invalid _ bad h,
        batchElemNum_buffer, batchElemNum_invalid _ bad h]
  | some v =>
    constructor <;>
      simp [XxHash64Batch, XxHash64BatchAsNumbers, List.map_append, List.map_map,
        Function.comp_def, batchElem_buffer, batchElem_invalid _ bad h,
        batchElemNum_buffer, batchElemNum_invalid _ bad h]

/-- C6 witness: a concrete three-element batch whose middle element is
not byte-bearing yields the two correct hashes around a zero slot. -/
theorem C6_witness :
    bytesOf JsVal.other = none ∧
    (XxHash64Batch
        (JsVal.array ([[5]].map JsVal.buffer ++ JsVal.other :: [[]].map JsVal.buffer) ::
          (none : Option JsVal).toList) =
      Except.ok ([[5]].map (fun b => XXH64 b (seedArgU64 none)) ++ 0 ::
        [[]].map (fun b => XXH64 b (seedArgU64 none))) ∧
    XxHash64BatchAsNumbers
        (JsVal.array ([[5]].map JsVal.buffer ++ JsVal.other :: [[]].map JsVal.buffer) ::
          (none : Option JsVal).toList) =
      Except.ok ([[5]].map (fun b => XXH64 b (seedArgNum none) % M32) ++ 0 ::
        [[]].map (fun b => XXH64 b (seedArgNum none) % M32))) :=
  ⟨rfl, C6_batch_invalid_element [[5]] [[]] JsVal.other none rfl⟩

/-- C7: update X, reset, update Y, digest returns exactly the one-shot
hash of Y with the construction seed, and reset restores the
freshly-constructed state, keeping the seed. -/
theorem C7_reset_restores_fresh_state (seed : Nat) (X Y : List Nat) :
    (runOps { state := XXH64_reset seed, seed := seed }
        [HOp.update X, HOp.reset, HOp.update Y, HOp.digest]).2 = [XXH64 Y seed] ∧
    XxHash64State.Reset { state := XXH64_update (XXH64_reset seed) X, seed := seed } =
      { state := XXH64_reset seed, seed := seed } := by
  constructor
  · simp only [runOps, applyOp, XxHash64State.Reset, List.append_nil, List.nil_append]
    rw [reset_eq_runState, update_runState, List.nil_append, digest_runState]
  · rfl

/-- C8: digest does not mutate the hasher — inserting a digest call
anywhere in an operation sequence changes neither the final state nor
the outputs of the surrounding operations (it only inserts its own
output, the digest of the state at that point), and two consecutive
digest calls return the same value. -/
theorem C8_digest_no_mutation (h : XxHash64StateRec) (pre post : List HOp) :
    (runOps h (pre ++ HOp.digest :: post)).1 = (runOps h (pre ++ post)).1 ∧
    (runOps h (pre ++ HOp.digest :: post)).2 =
      (runOps h pre).2 ++ XXH64_digest (runOps h pre).1.state ::
        (runOps (runOps h pre).1 post).2 ∧
    (runOps h (pre ++ post)).2 =
      (runOps h pre).2 ++ (runOps (runOps h pre).1 post).2 ∧
    (runOps h (HOp.digest :: HOp.digest :: post)).2 =
      XXH64_digest h.state :: XXH64_digest h.state :: (runOps h post).2 := by
  refine ⟨?_, ?_, ?_, ?_⟩
  · rw [runOps_append, runOps_append]
    simp [runOps, applyOp]
  · rw [runOps_append]
    simp [runOps, applyOp]
  · rw [runOps_append]
  · simp [runOps, applyOp]

/-- C9: a non-byte-bearing first argument makes the one-shot entry point
and the streaming update throw a TypeError synchronously, and the failed
update leaves the streaming state exactly as it was. -/
theorem C9_invalid_argument (v : JsVal) (rest : List JsVal) (s : XxHash64StateRec)
    (h : bytesOf v = none) :
    XxHash64 (v :: rest) = Except.error "Expected Buffer or TypedArray" ∧
    XxHash64State.Update s (some v) =
      (s, Except.error "Expected Buffer or TypedArray") := by
  constructor
  · simp [XxHash64, h]
  · simp [XxHash64State.Update, h]

/-- C9 witness: a concrete invalid argument is rejected by both entry
points and the state is returned unchanged. -/
theorem C9_witness :
    bytesOf JsVal.other = none ∧
    (XxHash64 (JsVal.other :: []) = Except.error "Expected Buffer or TypedArray" ∧
    XxHash64State.Update (XxHash64State.New none) (some JsVal.other) =
      (XxHash64State.New none, Except.error "Expected Buffer or TypedArray")) :=
  ⟨rfl, C9_invalid_argument JsVal.other [] (XxHash64State.New none) rfl⟩

/-- C10: out-of-range seeds are reduced modulo 2 ^ 64 — a negative Number
seed in int64 range goes through its two's-complement 64-bit value, and
a BigInt seed contributes only its low 64 bits, with no error raised
(the same holds for the streaming constructor). -/
theorem C10_seed_reduction (bs : List Nat) (n m : Int)
    (h1 : -(2 ^ 63) ≤ n) (h2 : n < 0) :
    XxHash64 [JsVal.buffer bs, JsVal.number n] =
      Except.ok (XXH64 bs (n + 2 ^ 64).toNat) ∧
    XxHash64 [JsVal.buffer bs, JsVal.bigint m] =
      XxHash64 [JsVal.buffer bs, JsVal.bigint (m % 2 ^ 64)] ∧
    XxHash64 [JsVal.buffer bs, JsVal.bigint m] = Except.ok (XXH64 bs (u64ofInt m)) ∧
    (XxHash64State.New (some (JsVal.bigint m))).state =
      (XxHash64State.New (some (JsVal.bigint (m % 2 ^ 64)))).state := by
  have h64 : (2 : Int) ^ 64 = 18446744073709551616 := by norm_num
  have hmod : u64ofInt m = u64ofInt (m % 2 ^ 64) := by
    unfold u64ofInt
    rw [h64]
    omega
  have hneg : u64ofInt n = (n + 2 ^ 64).toNat := by
    unfold u64ofInt
    rw [h64]
    have h63 : (2 : Int) ^ 63 = 9223372036854775808 := by norm_num
    rw [h63] at h1
    omega
  refine ⟨?_, ?_, rfl, ?_⟩
  · simp [XxHash64, bytesOf, seedArgU64, hneg]
  · simp [XxHash64, bytesOf, seedArgU64, hmod]
  · simp [XxHash64State.New, seedArgU64, hmod]

/-- C10 witness: a Number seed of -1 hashes with seed 2 ^ 64 - 1. -/
theorem C10_witness :
    (-(2 ^ 63) ≤ (-1 : Int)) ∧ ((-1 : Int) < 0) ∧
    XxHash64 [JsVal.buffer [], JsVal.number (-1)] =
      Except.ok (XXH64 [] ((-1 : Int) + 2 ^ 64).toNat) :=
  ⟨by decide, by decide, (C10_seed_reduction [] (-1) 0 (by decide) (by decide)).1⟩
